import Mathlib

/-!
Verification development for the chat-service repository.

The embedding models the provider-agnostic chat completion core found in
`src/services/deepseek.ts` (classes `DeepSeekService` and `OpenAIService`)
and the REST handler `handleChatAPI` from `src/index.ts`.

Text is modelled as `List Char` (JS strings).  The streaming decoder of
`OpenAIService.chatStream` is modelled as a pure function over the list of
read chunks; `JSON.parse` is modelled by an executable JSON parser
(`jsonParse`) over a JSON value AST, and the optional-chaining extraction
`data.choices?.[0]?.delta?.content` by `extractDelta`.
-/

/-! ## Basic JS string helpers -/

/-- Whitespace test used by `trim` and by JSON parsing (space, tab,
line feed, carriage return, vertical tab, form feed). -/
def isWsChar (c : Char) : Bool :=
  c = ' ' || c = '\t' || c = '\n' || c = '\r' || c = '\x0b' || c = '\x0c'

/-- Model of `String.prototype.trim`: drop whitespace from the left end. -/
def trimLeft : List Char → List Char
  | [] => []
  | c :: r => if isWsChar c then trimLeft r else c :: r

/-- Model of `String.prototype.trim`: drop whitespace from both ends. -/
def jsTrim (s : List Char) : List Char :=
  ((trimLeft s).reverse |> trimLeft).reverse

/-- JS string truthiness: `undefined` and the empty string are falsy.
Models the guards `if (request.systemPrompt)` and `x || y` on strings. -/
def jsStr : Option (List Char) → Option (List Char)
  | none => none
  | some s => if s = [] then none else some s

/-- Model of `a || b` where `a` is an optional string: `b` is used when `a`
is absent or empty (falsy). -/
def jsOr (a : Option (List Char)) (b : List Char) : List Char :=
  match jsStr a with
  | some s => s
  | none => b

/-! ## JSON values and the model of `JSON.parse`

`chatStream` calls `JSON.parse` on each SSE data line.  The parser below is
a recursive-descent parser for the JSON grammar, fueled to make it total;
the fuel supplied by `jsonParse` (input length + 1) always suffices because
every nesting level consumes at least one input character.  Numbers keep
their lexeme (`JSON.parse` produces a float; no claim depends on float
arithmetic, only on acceptance and on zero-ness for truthiness). -/

inductive Json where
  | null : Json
  | bool (b : Bool) : Json
  | num (lexeme : List Char) : Json
  | str (s : List Char) : Json
  | arr (items : List Json) : Json
  | obj (fields : List (List Char × Json)) : Json

/-- Skip JSON whitespace. -/
def skipWs : List Char → List Char
  | [] => []
  | c :: r => if isWsChar c then skipWs r else c :: r

/-- Hexadecimal digit value, for `\u` escapes. -/
def hexVal (c : Char) : Option Nat :=
  if 48 ≤ c.toNat ∧ c.toNat ≤ 57 then some (c.toNat - 48)
  else if 97 ≤ c.toNat ∧ c.toNat ≤ 102 then some (c.toNat - 87)
  else if 65 ≤ c.toNat ∧ c.toNat ≤ 70 then some (c.toNat - 55)
  else none

/-- Single-character JSON string escapes. -/
def unescapeChar (e : Char) : Option Char :=
  if e = '\x22' then some '\x22'
  else if e = '\\' then some '\\'
  else if e = '/' then some '/'
  else if e = 'b' then some '\x08'
  else if e = 'f' then some '\x0c'
  else if e = 'n' then some '\n'
  else if e = 'r' then some '\r'
  else if e = 't' then some '\t'
  else none

/-- Parse the body of a JSON string literal (after the opening quote),
returning the decoded characters and the rest of the input after the
closing quote.  Raw control characters are rejected, escapes are decoded;
`\u` escapes denoting surrogate halves are not representable as scalar
values and are rejected (the encoder used in this development never emits
them). -/
def parseStrBody (s : List Char) : Option (List Char × List Char) :=
  match s with
  | [] => none
  | c :: r =>
    if c = '\x22' then some ([], r)
    else if c = '\\' then
      match r with
      | [] => none
      | e :: r2 =>
        if e = 'u' then
          match r2 with
          | h1 :: h2 :: h3 :: h4 :: r3 =>
            match hexVal h1, hexVal h2, hexVal h3, hexVal h4 with
            | some a, some b, some c2, some d =>
              let m := ((a * 16 + b) * 16 + c2) * 16 + d
              if m < 55296 then
                match parseStrBody r3 with
                | some p => some (Char.ofNat m :: p.1, p.2)
                | none => none
              else if 57343 < m then
                match parseStrBody r3 with
                | some p => some (Char.ofNat m :: p.1, p.2)
                | none => none
              else none
            | _, _, _, _ => none
          | _ => none
        else
          match unescapeChar e with
          | some c2 =>
            match parseStrBody r2 with
            | some p => some (c2 :: p.1, p.2)
            | none => none
          | none => none
    else if c.toNat < 32 then none
    else
      match parseStrBody r with
      | some p => some (c :: p.1, p.2)
      | none => none
termination_by structural s

/-- Span of decimal digits. -/
def spanDigits : List Char → List Char × List Char
  | [] => ([], [])
  | c :: r =>
    if c.isDigit then
      let p := spanDigits r
      (c :: p.1, p.2)
    else ([], c :: r)

/-- Lex a JSON number ( `-? int frac? exp?` grammar of `JSON.parse`),
returning its lexeme and the remaining input. -/
def lexNumber (s : List Char) : Option (List Char × List Char) :=
  let (sgn, s1) :=
    match s with
    | '-' :: r => (['-'], r)
    | _ => (([] : List Char), s)
  match s1 with
  | [] => none
  | c :: r =>
    if c = '0' then
      let (fr, s2) := lexFracExp r
      match fr with
      | some f => some (sgn ++ '0' :: f, s2)
      | none => none
    else if c.isDigit then
      let (ds, s2) := spanDigits r
      let (fr, s3) := lexFracExp s2
      match fr with
      | some f => some (sgn ++ c :: ds ++ f, s3)
      | none => none
    else none
where
  /-- Optional fraction and exponent parts; `none` marks a malformed part
  (for example a dot with no following digit, as in `1.` which
  `JSON.parse` rejects). -/
  lexFracExp (s : List Char) : Option (List Char) × List Char :=
    let (fr, s1) :=
      match s with
      | '.' :: r =>
        match spanDigits r with
        | ([], _) => (none, s)
        | (ds, r2) => (some ('.' :: ds), r2)
      | _ => (some [], s)
    match fr with
    | none => (none, s1)
    | some f =>
      match s1 with
      | 'e' :: r => expTail f 'e' r s1
      | 'E' :: r => expTail f 'E' r s1
      | _ => (some f, s1)
  /-- Exponent tail after `e`/`E`. -/
  expTail (f : List Char) (e : Char) (r : List Char) (orig : List Char) :
      Option (List Char) × List Char :=
    let (sg, r2) :=
      match r with
      | '+' :: r2 => (['+'], r2)
      | '-' :: r2 => (['-'], r2)
      | _ => (([] : List Char), r)
    match spanDigits r2 with
    | ([], _) => (none, orig)
    | (ds, r3) => (some (f ++ e :: sg ++ ds), r3)

mutual

/-- Fueled JSON value parser.  Follows the `JSON.parse` grammar: leading
whitespace, then a string, array, object, literal or number. -/
def parseVal (fuel : Nat) (s : List Char) : Option (Json × List Char) :=
  match fuel, s with
  | 0, _ => none
  | n + 1, s =>
    match skipWs s with
    | '\x22' :: r =>
      match parseStrBody r with
      | some p => some (Json.str p.1, p.2)
      | none => none
    | '[' :: r =>
      match skipWs r with
      | ']' :: r2 => some (Json.arr [], r2)
      | r2 =>
        match parseVal n r2 with
        | some (v, r3) =>
          match parseArrTail n r3 with
          | some p => some (Json.arr (v :: p.1), p.2)
          | none => none
        | none => none
    | '\x7b' :: r =>
      match skipWs r with
      | '\x7d' :: r2 => some (Json.obj [], r2)
      | r2 =>
        match parseField n r2 with
        | some (f, r3) =>
          match parseObjTail n r3 with
          | some p => some (Json.obj (f :: p.1), p.2)
          | none => none
        | none => none
    | 't' :: 'r' :: 'u' :: 'e' :: r => some (Json.bool true, r)
    | 'f' :: 'a' :: 'l' :: 's' :: 'e' :: r => some (Json.bool false, r)
    | 'n' :: 'u' :: 'l' :: 'l' :: r => some (Json.null, r)
    | r =>
      match lexNumber r with
      | some (lx, r2) => some (Json.num lx, r2)
      | none => none
termination_by structural fuel

/-- Elements of an array after the first one: `,` separated, closed by `]`. -/
def parseArrTail (fuel : Nat) (s : List Char) : Option (List Json × List Char) :=
  match fuel, s with
  | 0, _ => none
  | n + 1, s =>
    match skipWs s with
    | ']' :: r => some ([], r)
    | ',' :: r =>
      match parseVal n r with
      | some (v, r2) =>
        match parseArrTail n r2 with
        | some p => some (v :: p.1, p.2)
        | none => none
      | none => none
    | _ => none
termination_by structural fuel

/-- One `"key": value` field of an object. -/
def parseField (fuel : Nat) (s : List Char) : Option ((List Char × Json) × List Char) :=
  match fuel, s with
  | 0, _ => none
  | n + 1, s =>
    match skipWs s with
    | '\x22' :: r =>
      match parseStrBody r with
      | some (k, r2) =>
        match skipWs r2 with
        | ':' :: r3 =>
          match parseVal n r3 with
          | some (v, r4) => some ((k, v), r4)
          | none => none
        | _ => none
      | none => none
    | _ => none
termination_by structural fuel

/-- Fields of an object after the first one: `,` separated, closed by
a closing brace. -/
def parseObjTail (fuel : Nat) (s : List Char) : Option (List (List Char × Json) × List Char) :=
  match fuel, s with
  | 0, _ => none
  | n + 1, s =>
    match skipWs s with
    | '\x7d' :: r => some ([], r)
    | ',' :: r =>
      match parseField n r with
      | some (f, r2) =>
        match parseObjTail n r2 with
        | some p => some (f :: p.1, p.2)
        | none => none
      | none => none
    | _ => none
termination_by structural fuel

end

/-- Model of `JSON.parse`: parse one value and require that only
whitespace remains. -/
def jsonParse (s : List Char) : Option Json :=
  match parseVal (s.length + 1) s with
  | some (v, r) => if skipWs r = [] then some v else none
  | none => none

/-! ## Model of `data.choices?.[0]?.delta?.content`

Property and index access follow JS semantics: access on a non-object
yields `undefined` (`none`); optional chaining short-circuits `null` and
`undefined`.  An access that would throw (`null.prop`) is modelled as
`none` as well, because in `chatStream` the extraction runs inside the
same `try` whose `catch` skips the line, so a throw and an `undefined`
delta have the same observable outcome (no yield). -/

/-- Object field lookup; later duplicate keys override earlier ones, as in
`JSON.parse`. -/
def objGet : List (List Char × Json) → List Char → Option Json
  | [], _ => none
  | (k, v) :: rest, key =>
    match objGet rest key with
    | some v2 => some v2
    | none => if k = key then some v else none

/-- JS property access on a JSON value (`undefined` as `none`). -/
def getProp (j : Json) (key : List Char) : Option Json :=
  match j with
  | Json.obj fs => objGet fs key
  | _ => none

/-- JS index access `x[i]`: array element, object property named by the
decimal numeral, or one-character string for string indexing. -/
def getIdx (j : Json) (i : Nat) : Option Json :=
  match j with
  | Json.arr xs => xs.get? i
  | Json.obj fs => objGet fs (toString i).toList
  | Json.str s =>
    match s.get? i with
    | some c => some (Json.str [c])
    | none => none
  | _ => none

/-- Optional-chaining step `o?.key`. -/
def chainProp (o : Option Json) (key : List Char) : Option Json :=
  match o with
  | none => none
  | some Json.null => none
  | some j => getProp j key

/-- Optional-chaining step `o?.[i]`. -/
def chainIdx (o : Option Json) (i : Nat) : Option Json :=
  match o with
  | none => none
  | some Json.null => none
  | some j => getIdx j i

def choicesKey : List Char := 'c' :: 'h' :: 'o' :: 'i' :: 'c' :: 'e' :: 's' :: []
def deltaKey : List Char := 'd' :: 'e' :: 'l' :: 't' :: 'a' :: []
def contentKey : List Char := 'c' :: 'o' :: 'n' :: 't' :: 'e' :: 'n' :: 't' :: []

/-- The extraction `data.choices?.[0]?.delta?.content` from `chatStream`. -/
def extractDelta (j : Json) : Option Json :=
  chainProp (chainProp (chainIdx (getProp j choicesKey) 0) deltaKey) contentKey

/-- Digits of the mantissa of a number lexeme (everything before an
exponent marker). -/
def mantissa (lx : List Char) : List Char :=
  lx.takeWhile (fun c => ¬ (c = 'e' ∨ c = 'E'))

/-- A JSON number is zero exactly when every digit of its mantissa is `0`
(sign and exponent cannot make a nonzero mantissa zero; float underflow of
extreme exponents is idealised away). -/
def numIsZero (lx : List Char) : Bool :=
  (mantissa lx).all (fun c => ¬ c.isDigit ∨ c = '0')

/-- JS truthiness of a JSON value, for the guard `if (delta)`. -/
def truthy : Json → Bool
  | Json.null => false
  | Json.bool b => b
  | Json.num lx => ¬ numIsZero lx
  | Json.str s => ¬ s = []
  | Json.arr _ => true
  | Json.obj _ => true

/-! ## The per-line step and the read loop of `chatStream` -/

def dataPfx : List Char := 'd' :: 'a' :: 't' :: 'a' :: ':' :: ' ' :: []

def doneLine : List Char := "data: [DONE]".toList

/-- One iteration of the `for (const line of lines)` body in `chatStream`:
trim, skip blank lines and the terminator, skip lines without the
`data: ` prefix, otherwise `JSON.parse` the remainder and yield the delta
when it is present and truthy.  A parse failure (or an extraction throw)
is caught and skipped. -/
def decodeSseLine (line : List Char) : Option Json :=
  let t := jsTrim line
  if t = [] then none
  else if t = doneLine then none
  else if ¬ (dataPfx.isPrefixOf t) then none
  else
    match jsonParse (t.drop 6) with
    | none => none
    | some j =>
      match extractDelta j with
      | some d => if truthy d then some d else none
      | none => none

/-- Model of `buffer.split('\n')` (JS `String.prototype.split` with a
one-character separator): always returns at least one component. -/
def splitNl : List Char → List (List Char)
  | [] => [[]]
  | c :: r =>
    if c = '\n' then [] :: splitNl r
    else (c :: (splitNl r).headD []) :: (splitNl r).tail

/-- All deltas produced from a list of complete lines. -/
def decodeLines (ls : List (List Char)) : List Json :=
  ls.filterMap decodeSseLine

/-- The read loop of `chatStream` over the remaining chunks, carrying the
text buffer: append the newly decoded chunk to the buffer, split on
newlines, keep the final (possibly incomplete) component as the new
buffer (`buffer = lines.pop() || ''`), process the complete lines, and on
end of stream discard whatever remains buffered. -/
def decodeChunksAux (buf : List Char) : List (List Char) → List Json
  | [] => []
  | c :: cs =>
    let lines := splitNl (buf ++ c)
    decodeLines lines.dropLast ++ decodeChunksAux (lines.getLastD []) cs

/-- The deltas yielded by `chatStream` for a given sequence of reads. -/
def chatStreamDecode (chunks : List (List Char)) : List Json :=
  decodeChunksAux [] chunks

/-- Decoding of a whole stream presented as a single read. -/
def decodeAll (s : List Char) : List Json :=
  decodeLines (splitNl s).dropLast

/-! ## Synthetic SSE streams (the round-trip invariant's test streams)

A stream that "carries deltas `ds`" is the concatenation of frames
`data: <json>\n\n` where `<json>` is
`\x7b"choices":[\x7b"delta":\x7b"content":"<escaped delta>"\x7d\x7d]\x7d`.
`jsonEscape` performs JSON string escaping, so a delta may contain any
characters (quotes, backslashes, newlines, control characters). -/

def hexDigitChar (n : Nat) : Char :=
  if n < 10 then Char.ofNat (48 + n) else Char.ofNat (87 + n)

/-- JSON string escaping of one character. -/
def escapeChar (c : Char) : List Char :=
  if c = '\x22' then '\\' :: '\x22' :: []
  else if c = '\\' then '\\' :: '\\' :: []
  else if c = '\n' then '\\' :: 'n' :: []
  else if c = '\r' then '\\' :: 'r' :: []
  else if c = '\t' then '\\' :: 't' :: []
  else if c.toNat < 32 then
    '\\' :: 'u' :: '0' :: '0' :: hexDigitChar (c.toNat / 16) :: hexDigitChar (c.toNat % 16) :: []
  else c :: []

/-- JSON string escaping. -/
def jsonEscape : List Char → List Char
  | [] => []
  | c :: r => escapeChar c ++ jsonEscape r

/-- The characters before the escaped delta in a frame body:
`\x7b"choices":[\x7b"delta":\x7b"content":"`. -/
def framePre : List Char :=
  '\x7b' :: '\x22' :: 'c' :: 'h' :: 'o' :: 'i' :: 'c' :: 'e' :: 's' :: '\x22' :: ':' ::
  '[' :: '\x7b' :: '\x22' :: 'd' :: 'e' :: 'l' :: 't' :: 'a' :: '\x22' :: ':' ::
  '\x7b' :: '\x22' :: 'c' :: 'o' :: 'n' :: 't' :: 'e' :: 'n' :: 't' :: '\x22' :: ':' :: '\x22' :: []

/-- The characters after the escaped delta in a frame body: `"\x7d\x7d]\x7d`. -/
def framePost : List Char := '\x22' :: '\x7d' :: '\x7d' :: ']' :: '\x7d' :: []

/-- The JSON text of one synthetic chunk carrying delta `d`. -/
def encFrameBody (d : List Char) : List Char := framePre ++ (jsonEscape d ++ framePost)

/-- One SSE frame `data: <json>\n\n`. -/
def sseFrame (d : List Char) : List Char := dataPfx ++ encFrameBody d ++ '\n' :: '\n' :: []

/-- A synthetic SSE byte stream whose data lines carry the deltas `ds`. -/
def sseStream (ds : List (List Char)) : List Char := (ds.map sseFrame).flatten

/-- The JSON value a frame parses to. -/
def frameJson (d : List Char) : Json :=
  Json.obj [(choicesKey, Json.arr [Json.obj [(deltaKey, Json.obj [(contentKey, Json.str d)])]])]

/-- Concatenation of the yielded deltas (all yielded deltas of a synthetic
stream are strings). -/
def deltaConcat (out : List Json) : List Char :=
  (out.map fun j => match j with | Json.str s => s | _ => []).flatten

/-! ## Data model of the services (`src/services/deepseek.ts`) -/

inductive Role where
  | system : Role
  | user : Role
  | assistant : Role
  deriving DecidableEq

structure OpenAIMessage where
  role : Role
  content : List Char
  deriving DecidableEq

/-- `ChatServiceRequest` of the OpenAI variant (the DeepSeek variant uses
only the first three fields). -/
structure ChatServiceRequest where
  message : List Char
  conversationId : Option (List Char)
  systemPrompt : Option (List Char)
  model : Option (List Char)
  temperature : Option ℚ
  maxTokens : Option Nat
  deriving DecidableEq

structure Usage where
  prompt_tokens : Nat
  completion_tokens : Nat
  total_tokens : Nat
  deriving DecidableEq

structure ChatServiceResponse where
  message : List Char
  conversationId : List Char
  usage : Option Usage
  model : Option (List Char)
  finishReason : Option (List Char)
  deriving DecidableEq

/-- The provider wire payload built by the services.  `top_p`,
`frequency_penalty` and `presence_penalty` are set by `OpenAIService.chat`
but omitted by `chatWithHistory` and `chatStream`, hence optional here. -/
structure OpenAIRequest where
  model : List Char
  messages : List OpenAIMessage
  temperature : ℚ
  max_tokens : Nat
  stream : Bool
  top_p : Option ℚ
  frequency_penalty : Option ℚ
  presence_penalty : Option ℚ
  deriving DecidableEq

/-- One choice of a non-streaming provider response body. -/
structure OpenAIChoice where
  message : OpenAIMessage
  finish_reason : Option (List Char)
  deriving DecidableEq

/-- A parsed 2xx provider response body: `data.choices`, `data.usage`,
`data.model` as consulted by `chat`. -/
structure OpenAIResponseBody where
  choices : Option (List OpenAIChoice)
  usage : Option Usage
  model : List Char
  deriving DecidableEq

/-- Mutable instance state of `OpenAIService`. -/
structure OpenAIServiceState where
  apiKey : List Char
  baseUrl : List Char
  defaultModel : List Char
  organization : Option (List Char)
  deriving DecidableEq

/-- Constructor of `OpenAIService`: requires a truthy API key, stores the
configuration; `baseUrl` defaults unless overridden by options. -/
def OpenAIService.make (apiKey : List Char) (organization : Option (List Char))
    (baseUrlOpt : Option (List Char)) : Except (List Char) OpenAIServiceState :=
  if apiKey = [] then Except.error ("OpenAI API key is required".toList)
  else Except.ok
    { apiKey := apiKey
      baseUrl := jsOr baseUrlOpt ("https://api.openai.com/v1".toList)
      defaultModel := "gpt-4o".toList
      organization := organization }

/-- Method `setDefaultModel`: reassigns the `defaultModel` field. -/
def OpenAIService.setDefaultModel (st : OpenAIServiceState) (model : List Char) :
    OpenAIServiceState :=
  { st with defaultModel := model }

/-- Method `getDefaultModel`. -/
def OpenAIService.getDefaultModel (st : OpenAIServiceState) : List Char :=
  st.defaultModel

/-- Message list built by `OpenAIService.chat` (and, identically, by
`DeepSeekService.chat` and `chatStream`): optional system message from a
truthy `systemPrompt`, then the user message. -/
def chatMessages (req : ChatServiceRequest) : List OpenAIMessage :=
  (match jsStr req.systemPrompt with
   | some sp => [⟨Role.system, sp⟩]
   | none => []) ++ [⟨Role.user, req.message⟩]

/-- Message list built by `OpenAIService.chatWithHistory`: optional system
message, then the history in original order (when present and non-empty),
then the current user message. -/
def chatWithHistoryMessages (req : ChatServiceRequest)
    (history : Option (List OpenAIMessage)) : List OpenAIMessage :=
  (match jsStr req.systemPrompt with
   | some sp => [⟨Role.system, sp⟩]
   | none => []) ++
  (match history with
   | some h => if h.length > 0 then h else []
   | none => []) ++
  [⟨Role.user, req.message⟩]

/-- Wire payload of `OpenAIService.chat`: defaults for omitted request
fields come from the instance state (`request.model || this.defaultModel`)
and from the literals `0.7` and `2000`; `stream` is `false`. -/
def chatPayload (st : OpenAIServiceState) (req : ChatServiceRequest) : OpenAIRequest :=
  { model := jsOr req.model st.defaultModel
    messages := chatMessages req
    temperature := req.temperature.getD (7 / 10)
    max_tokens := req.maxTokens.getD 2000
    stream := false
    top_p := some 1
    frequency_penalty := some 0
    presence_penalty := some 0 }

/-- Wire payload of `OpenAIService.chatStream` (differs from `chat` by
`stream: true` and by omitting the penalty fields). -/
def chatStreamPayload (st : OpenAIServiceState) (req : ChatServiceRequest) : OpenAIRequest :=
  { model := jsOr req.model st.defaultModel
    messages := chatMessages req
    temperature := req.temperature.getD (7 / 10)
    max_tokens := req.maxTokens.getD 2000
    stream := true
    top_p := none
    frequency_penalty := none
    presence_penalty := none }

/-- `generateConversationId`: `conv_` + `Date.now()` + `_` + random
base-36 digits. -/
def generateConversationId (now : Nat) (rand : List Char) : List Char :=
  'c' :: 'o' :: 'n' :: 'v' :: '_' :: (toString now).toList ++ '_' :: rand

/-- Everything `chat` observes about the outcome of its `fetch` (plus the
body reads): a transport failure (the rejection's error message - also
covers a body that fails to parse as JSON on the 2xx path), a non-2xx
response (status, statusText, and the truthy
`errorData?.error?.message` if any), or a parsed 2xx body. -/
inductive FetchOutcome where
  | failure (errMsg : List Char)
  | httpError (status : Nat) (statusText : List Char) (bodyErrMsg : Option (List Char))
  | ok (body : OpenAIResponseBody)

def invalidKeyMsg : List Char := "Invalid OpenAI API key".toList
def rateLimitMsg : List Char := "OpenAI API rate limit exceeded. Please try again later.".toList
def unavailableMsg : List Char :=
  "OpenAI API is temporarily unavailable. Please try again later.".toList
def apiErrorPfx : List Char := "OpenAI API error: ".toList
def noResponseMsg : List Char := "No response from OpenAI API".toList

/-- The error message `chat` throws for a non-2xx response:
dedicated messages for 401, 429 and 503, otherwise
`OpenAI API error: ` + (`errorData?.error?.message ||
`status` `statusText`). -/
def chatHttpErrorMsg (status : Nat) (statusText : List Char)
    (bodyErrMsg : Option (List Char)) : List Char :=
  if status = 401 then invalidKeyMsg
  else if status = 429 then rateLimitMsg
  else if status = 503 then unavailableMsg
  else apiErrorPfx ++ jsOr bodyErrMsg ((toString status).toList ++ ' ' :: statusText)

/-- `OpenAIService.chat` after the `fetch` resolves: classify non-2xx
responses into thrown `Error` messages, reject 2xx bodies with an absent
or empty `choices` list, and otherwise assemble the
`ChatServiceResponse`; the `conversationId` is the supplied one when
truthy, else a freshly generated one.  The thrown value is modelled by
its message; a transport failure is rethrown unchanged
(`if (error instanceof Error) throw error`). -/
def OpenAIService.chat (req : ChatServiceRequest) (now : Nat) (rand : List Char)
    (outcome : FetchOutcome) : Except (List Char) ChatServiceResponse :=
  match outcome with
  | FetchOutcome.failure errMsg => Except.error errMsg
  | FetchOutcome.httpError status statusText bodyErrMsg =>
    Except.error (chatHttpErrorMsg status statusText bodyErrMsg)
  | FetchOutcome.ok body =>
    match body.choices with
    | none => Except.error noResponseMsg
    | some [] => Except.error noResponseMsg
    | some (choice :: _) =>
      Except.ok
        { message := choice.message.content
          conversationId := jsOr req.conversationId (generateConversationId now rand)
          usage := body.usage
          model := some body.model
          finishReason := choice.finish_reason }

/-- `DeepSeekService.chat` after its `fetch` resolves: one generic error
message for any non-2xx response, the empty-choices rejection, and a
result carrying only message, conversationId and usage. -/
def DeepSeekService.chat (req : ChatServiceRequest) (now : Nat) (rand : List Char)
    (outcome : FetchOutcome) : Except (List Char) ChatServiceResponse :=
  match outcome with
  | FetchOutcome.failure errMsg => Except.error errMsg
  | FetchOutcome.httpError status statusText _ =>
    Except.error ("DeepSeek API error: ".toList ++ (toString status).toList ++
      ' ' :: statusText ++ ' ' :: '-' :: ' ' :: [])
  | FetchOutcome.ok body =>
    match body.choices with
    | none => Except.error ("No response from DeepSeek API".toList)
    | some [] => Except.error ("No response from DeepSeek API".toList)
    | some (choice :: _) =>
      Except.ok
        { message := choice.message.content
          conversationId := jsOr req.conversationId (generateConversationId now rand)
          usage := body.usage
          model := none
          finishReason := none }

/-- `estimateTokens`: `Math.ceil(text.length / 4)`, written as exact
natural-number ceiling division. -/
def OpenAIService.estimateTokens (text : List Char) : Nat :=
  (text.length + 4 - 1) / 4

/-! ## The REST handler `handleChatAPI` (`src/index.ts`) -/

/-- The uniform REST/GraphQL result shape (`ChatResponse` of
`src/types`). -/
structure ChatResponse where
  message : List Char
  conversationId : List Char
  timestamp : List Char
  model : List Char
  usage : Option Usage
  deriving DecidableEq

/-- Request body of `POST /api/chat` (`message` may be missing). -/
structure ChatRequestBody where
  message : Option (List Char)
  conversationId : Option (List Char)
  systemPrompt : Option (List Char)

/-- The validation in `handleChatAPI`:
`!body.message || typeof body.message !== 'string' ||
body.message.trim().length === 0`.  With text modelled as strings the
`typeof` test is always passed, so the message is invalid exactly when it
is missing, empty, or whitespace-only. -/
def messageInvalid (message : Option (List Char)) : Bool :=
  match jsStr message with
  | none => true
  | some s => jsTrim s = []

/-- The hardcoded model label `handleChatAPI` stamps on every response. -/
def hardcodedModel : List Char := "deepseek-chat".toList

/-- Result of `handleChatAPI`: an error envelope `(message, code, status)`,
or the assembled `ChatResponse`; an exception thrown by the service
propagates out (`Except.error`). -/
inductive ApiResult where
  | envelope (errMsg : List Char) (code : List Char) (status : Nat)
  | okResponse (resp : ChatResponse)
  deriving DecidableEq

/-- `handleChatAPI` (JSON body already read): validate the message and the
configured key, call `openAIService.chat` with the trimmed message, and
assemble the `ChatResponse` with the hardcoded `model: 'deepseek-chat'`
label. -/
def handleChatAPI (body : ChatRequestBody) (apiKeySet : Bool) (now : Nat)
    (rand : List Char) (timestamp : List Char) (outcome : FetchOutcome) :
    Except (List Char) ApiResult :=
  if messageInvalid body.message then
    Except.ok (ApiResult.envelope
      ("Message is required and must be a non-empty string".toList)
      ("INVALID_MESSAGE".toList) 400)
  else if ¬ apiKeySet then
    Except.ok (ApiResult.envelope ("OpenAI API key not configured".toList)
      ("MISSING_API_KEY".toList) 500)
  else
    match OpenAIService.chat
        { message := jsTrim ((body.message).getD [])
          conversationId := body.conversationId
          systemPrompt := body.systemPrompt
          model := none
          temperature := none
          maxTokens := none } now rand outcome with
    | Except.error e => Except.error e
    | Except.ok svc =>
      Except.ok (ApiResult.okResponse
        { message := svc.message
          conversationId := svc.conversationId
          timestamp := timestamp
          model := hardcodedModel
          usage := svc.usage })

/-! ## The spec's error taxonomy (Error Classifier, spec section 4.4)

The closed `ErrorKind` taxonomy does not exist in the source; it is the
spec's target design.  It is defined here only to state claims comparing
the code's thrown errors against it. -/

inductive ErrorKind where
  | authenticationError : ErrorKind
  | rateLimited : ErrorKind
  | unavailable : ErrorKind
  | invalidRequest : ErrorKind
  | providerInternalError : ErrorKind
  | emptyResponse : ErrorKind
  | unknown : ErrorKind
  deriving DecidableEq

/-- Modelled from the spec: the Error Classifier of spec section 4.4
(absent from the source), rules checked in order: transport failure,
401, 429, 503, other 4xx, 5xx and up, empty choices on 2xx, else
unknown. -/
def classifySpec (transportFailure : Bool) (httpStatus : Option Nat)
    (emptyChoices : Bool) : ErrorKind :=
  if transportFailure then ErrorKind.unavailable
  else
    match httpStatus with
    | some s =>
      if s = 401 then ErrorKind.authenticationError
      else if s = 429 then ErrorKind.rateLimited
      else if s = 503 then ErrorKind.unavailable
      else if 400 ≤ s ∧ s ≤ 499 then ErrorKind.invalidRequest
      else if 500 ≤ s then ErrorKind.providerInternalError
      else if emptyChoices then ErrorKind.emptyResponse
      else ErrorKind.unknown
    | none => if emptyChoices then ErrorKind.emptyResponse else ErrorKind.unknown

/-! ## Lemmas about newline splitting and the read loop -/

theorem splitNl_ne_nil (s : List Char) : splitNl s ≠ [] := by
  cases s with
  | nil => simp [splitNl]
  | cons c r =>
    simp only [splitNl]
    split <;> simp

theorem splitNl_cons_nl (r : List Char) : splitNl ('\n' :: r) = [] :: splitNl r := by
  simp [splitNl]

theorem splitNl_cons_ne (c : Char) (r : List Char) (h : ¬ c = '\n') :
    splitNl (c :: r) = (c :: (splitNl r).headD []) :: (splitNl r).tail := by
  simp [splitNl, h]

theorem splitNl_no_nl (s : List Char) (h : '\n' ∉ s) : splitNl s = [s] := by
  induction s with
  | nil => simp [splitNl]
  | cons c r ih =>
    have hc : ¬ c = '\n' := fun hh => h (hh ▸ List.mem_cons_self c r)
    have hr : '\n' ∉ r := fun hh => h (List.mem_cons_of_mem c hh)
    rw [splitNl_cons_ne c r hc, ih hr]
    simp

theorem mem_splitNl_no_nl (s : List Char) : ∀ l ∈ splitNl s, '\n' ∉ l := by
  induction s with
  | nil => simp [splitNl]
  | cons c r ih =>
    by_cases hc : c = '\n'
    · subst hc
      rw [splitNl_cons_nl]
      intro l hl
      rcases List.mem_cons.mp hl with h | h
      · simp [h]
      · exact ih l h
    · rw [splitNl_cons_ne c r hc]
      intro l hl
      rcases hA : splitNl r with _ | ⟨x, xs⟩
      · exact absurd hA (splitNl_ne_nil r)
      · rw [hA] at hl
        simp only [List.headD_cons, List.tail_cons] at hl
        rcases List.mem_cons.mp hl with h | h
        · subst h
          intro hmem
          rcases List.mem_cons.mp hmem with h2 | h2
          · exact hc h2.symm
          · exact ih x (hA ▸ List.mem_cons_self x xs) h2
        · exact ih l (hA ▸ List.mem_cons_of_mem x h)

theorem splitNl_append (a b : List Char) :
    splitNl (a ++ b) =
      (splitNl a).dropLast ++
        ((splitNl a).getLastD [] ++ (splitNl b).headD []) :: (splitNl b).tail := by
  induction a with
  | nil =>
    rcases hB : splitNl b with _ | ⟨h, t⟩
    · exact absurd hB (splitNl_ne_nil b)
    · simp [splitNl, hB]
  | cons c a ih =>
    by_cases hc : c = '\n'
    · subst hc
      rw [List.cons_append, splitNl_cons_nl, splitNl_cons_nl, ih,
        List.dropLast_cons_of_ne_nil (splitNl_ne_nil a), List.getLastD_cons]
      rcases hA : splitNl a with _ | ⟨x, xs⟩
      · exact absurd hA (splitNl_ne_nil a)
      · simp [List.getLastD_cons]
    · rw [List.cons_append, splitNl_cons_ne c _ hc, splitNl_cons_ne c _ hc, ih]
      rcases hA : splitNl a with _ | ⟨x, xs⟩
      · exact absurd hA (splitNl_ne_nil a)
      · rcases hB : splitNl b with _ | ⟨hb, tb⟩
        · exact absurd hB (splitNl_ne_nil b)
        · cases xs with
          | nil => simp [List.getLastD_cons]
          | cons y ys => simp [List.getLastD_cons]

theorem decodeLines_append (ls1 ls2 : List (List Char)) :
    decodeLines (ls1 ++ ls2) = decodeLines ls1 ++ decodeLines ls2 := by
  simp [decodeLines, List.filterMap_append]

/-- The read loop with buffer `buf` and remaining chunks `cs` decodes
exactly what single-shot decoding of `buf ++ cs.flatten` decodes: chunk
boundaries are invisible. -/
theorem decodeChunksAux_eq_decodeAll (cs : List (List Char)) :
    ∀ buf : List Char, '\n' ∉ buf →
      decodeChunksAux buf cs = decodeAll (buf ++ cs.flatten) := by
  induction cs with
  | nil =>
    intro buf h
    simp [decodeChunksAux, decodeAll, List.flatten_nil, List.append_nil,
      splitNl_no_nl buf h, decodeLines]
  | cons c cs ih =>
    intro buf h
    have hL : '\n' ∉ (splitNl (buf ++ c)).getLastD [] := by
      rcases hA : splitNl (buf ++ c) with _ | ⟨x, xs⟩
      · exact absurd hA (splitNl_ne_nil _)
      · have := mem_splitNl_no_nl (buf ++ c) ((x :: xs).getLastD [])
        rw [hA] at this
        exact this (by
          rw [List.getLastD_cons]
          exact List.getLastD_mem_cons xs x)
    simp only [decodeChunksAux]
    rw [ih _ hL]
    simp only [decodeAll, List.flatten_cons, ← List.append_assoc]
    rw [splitNl_append (buf ++ c) cs.flatten,
      List.dropLast_append_of_ne_nil _ (by simp),
      decodeLines_append,
      splitNl_append ((splitNl (buf ++ c)).getLastD []) cs.flatten,
      splitNl_no_nl _ hL]
    simp

/-- Single-shot decoding as a special case of the loop. -/
theorem chatStreamDecode_eq_decodeAll (cs : List (List Char)) :
    chatStreamDecode cs = decodeAll cs.flatten := by
  have := decodeChunksAux_eq_decodeAll cs [] (by simp)
  simpa [chatStreamDecode] using this

/-! ## Lemmas: parsing a synthetic frame -/

theorem hexVal_hexDigitChar : ∀ k : Nat, k < 16 → hexVal (hexDigitChar k) = some k := by
  decide

theorem parseStrBody_escape (s : List Char) :
    ∀ r : List Char, parseStrBody (jsonEscape s ++ '\x22' :: r) = some (s, r) := by
  induction s with
  | nil =>
    intro r
    rw [jsonEscape, List.nil_append, parseStrBody.eq_def]
    simp +decide
  | cons c s ih =>
    intro r
    rw [jsonEscape, List.append_assoc]
    by_cases h1 : c = '\x22'
    · subst h1
      rw [escapeChar]
      simp only [reduceIte, List.cons_append, List.nil_append]
      rw [parseStrBody.eq_def]
      simp +decide [unescapeChar, ih]
    · by_cases h2 : c = '\\'
      · subst h2
        rw [escapeChar]
        simp +decide only [reduceIte]
        simp only [List.cons_append, List.nil_append]
        rw [parseStrBody.eq_def]
        simp +decide [unescapeChar, ih]
      · by_cases h3 : c = '\n'
        · subst h3
          rw [escapeChar]
          simp +decide only [reduceIte]
          simp only [List.cons_append, List.nil_append]
          rw [parseStrBody.eq_def]
          simp +decide [unescapeChar, ih]
        · by_cases h4 : c = '\r'
          · subst h4
            rw [escapeChar]
            simp +decide only [reduceIte]
            simp only [List.cons_append, List.nil_append]
            rw [parseStrBody.eq_def]
            simp +decide [unescapeChar, ih]
          · by_cases h5 : c = '\t'
            · subst h5
              rw [escapeChar]
              simp +decide only [reduceIte]
              simp only [List.cons_append, List.nil_append]
              rw [parseStrBody.eq_def]
              simp +decide [unescapeChar, ih]
            · by_cases h6 : c.toNat < 32
              · have hdiv : c.toNat / 16 < 16 := by omega
                have hmod : c.toNat % 16 < 16 := by omega
                rw [escapeChar]
                simp only [h1, h2, h3, h4, h5, h6, if_true, if_false, ite_true, ite_false,
                  List.cons_append, List.nil_append]
                rw [parseStrBody.eq_def]
                simp +decide [hexVal_hexDigitChar _ hdiv, hexVal_hexDigitChar _ hmod]
                have h0 : hexVal '0' = some 0 := by decide
                rw [h0]
                simp only []
                have hv : (((0 * 16 + 0) * 16 + c.toNat / 16) * 16 + c.toNat % 16) = c.toNat := by
                  omega
                rw [hv]
                have hlt : c.toNat < 55296 := by omega
                rw [if_pos hlt, ih r, Char.ofNat_toNat]
              · rw [escapeChar]
                simp only [h1, h2, h3, h4, h5, h6, if_true, if_false, ite_true, ite_false,
                  List.cons_append, List.nil_append]
                rw [parseStrBody.eq_def]
                simp only [h1, h2, h6, if_false, ite_false]
                rw [ih r]

theorem skipWs_cons (c : Char) (r : List Char) (h : isWsChar c = false) :
    skipWs (c :: r) = c :: r := by
  rw [skipWs, h]
  simp

theorem parseStrBody_plain (k : List Char) (hk : jsonEscape k = k) (x : List Char) :
    parseStrBody (k ++ '\x22' :: x) = some (k, x) := by
  have := parseStrBody_escape k x
  rwa [hk] at this

theorem parseObjTail_close (n : Nat) (r : List Char) :
    parseObjTail (n + 1) ('\x7d' :: r) = some ([], r) := by
  rw [parseObjTail.eq_def]
  simp only []
  rw [skipWs_cons _ _ (by decide)]
  simp

theorem parseArrTail_close (n : Nat) (r : List Char) :
    parseArrTail (n + 1) (']' :: r) = some ([], r) := by
  rw [parseArrTail.eq_def]
  simp only []
  rw [skipWs_cons _ _ (by decide)]
  simp

set_option maxHeartbeats 1000000 in
theorem parseVal_str (n : Nat) (d r : List Char) :
    parseVal (n + 1) ('\x22' :: (jsonEscape d ++ '\x22' :: r)) = some (Json.str d, r) := by
  rw [parseVal.eq_def]
  simp only []
  rw [skipWs_cons _ _ (by decide)]
  simp [parseStrBody_escape]

set_option maxHeartbeats 1000000 in
theorem parseField_plain (n : Nat) (k : List Char) (hk : jsonEscape k = k)
    (rest : List Char) (v : Json) (r2 : List Char)
    (hv : parseVal (n + 1) rest = some (v, r2)) :
    parseField (n + 2) ('\x22' :: (k ++ '\x22' :: ':' :: rest)) = some ((k, v), r2) := by
  rw [parseField.eq_def]
  simp only []
  rw [skipWs_cons _ _ (by decide)]
  have hkey : parseStrBody (k ++ '\x22' :: ':' :: rest) = some (k, ':' :: rest) :=
    parseStrBody_plain k hk (':' :: rest)
  simp only []
  rw [hkey]
  simp only []
  rw [skipWs_cons _ _ (by decide)]
  simp [hv]

set_option maxHeartbeats 1000000 in
theorem parseVal_obj1 (n : Nat) (k : List Char) (hk : jsonEscape k = k)
    (rest : List Char) (v : Json) (r3 : List Char)
    (hv : parseVal (n + 1) rest = some (v, '\x7d' :: r3)) :
    parseVal (n + 3) ('\x7b' :: '\x22' :: (k ++ '\x22' :: ':' :: rest)) =
      some (Json.obj [(k, v)], r3) := by
  rw [parseVal.eq_def]
  simp only []
  rw [skipWs_cons _ _ (by decide)]
  have hf := parseField_plain n k hk rest v ('\x7d' :: r3) hv
  simp only []
  rw [skipWs_cons _ _ (by decide)]
  simp [hf, parseObjTail_close]

set_option maxHeartbeats 1000000 in
theorem parseVal_arr1 (n : Nat) (rest0 : List Char) (v : Json) (r2 : List Char)
    (hv : parseVal (n + 1) ('\x7b' :: rest0) = some (v, ']' :: r2)) :
    parseVal (n + 2) ('[' :: '\x7b' :: rest0) = some (Json.arr [v], r2) := by
  rw [parseVal.eq_def]
  simp only []
  rw [skipWs_cons _ _ (by decide)]
  have hsw : skipWs ('\x7b' :: rest0) = '\x7b' :: rest0 := skipWs_cons _ _ (by decide)
  simp [hsw, hv, parseArrTail_close]

set_option maxHeartbeats 1000000 in
theorem parseVal_frame (n : Nat) (d r : List Char) :
    parseVal (n + 8) (encFrameBody d ++ r) = some (frameJson d, r) := by
  have hA : parseVal (n + 1)
      ('\x22' :: (jsonEscape d ++ '\x22' :: ('\x7d' :: '\x7d' :: ']' :: '\x7d' :: r))) =
      some (Json.str d, '\x7d' :: '\x7d' :: ']' :: '\x7d' :: r) := parseVal_str n d _
  have hB := parseVal_obj1 n contentKey (by decide)
    ('\x22' :: (jsonEscape d ++ '\x22' :: ('\x7d' :: '\x7d' :: ']' :: '\x7d' :: r)))
    (Json.str d) ('\x7d' :: ']' :: '\x7d' :: r) hA
  have hC := parseVal_obj1 (n + 2) deltaKey (by decide)
    ('\x7b' :: '\x22' :: (contentKey ++ '\x22' :: ':' ::
      ('\x22' :: (jsonEscape d ++ '\x22' :: ('\x7d' :: '\x7d' :: ']' :: '\x7d' :: r)))))
    (Json.obj [(contentKey, Json.str d)]) (']' :: '\x7d' :: r) hB
  have hD := parseVal_arr1 (n + 4)
    ('\x22' :: (deltaKey ++ '\x22' :: ':' ::
      ('\x7b' :: '\x22' :: (contentKey ++ '\x22' :: ':' ::
        ('\x22' :: (jsonEscape d ++ '\x22' :: ('\x7d' :: '\x7d' :: ']' :: '\x7d' :: r)))))))
    (Json.obj [(deltaKey, Json.obj [(contentKey, Json.str d)])]) ('\x7d' :: r) hC
  have hE := parseVal_obj1 (n + 5) choicesKey (by decide)
    ('[' :: '\x7b' :: '\x22' :: (deltaKey ++ '\x22' :: ':' ::
      ('\x7b' :: '\x22' :: (contentKey ++ '\x22' :: ':' ::
        ('\x22' :: (jsonEscape d ++ '\x22' :: ('\x7d' :: '\x7d' :: ']' :: '\x7d' :: r)))))))
    (Json.arr [Json.obj [(deltaKey, Json.obj [(contentKey, Json.str d)])]]) r hD
  have heq : encFrameBody d ++ r =
      '\x7b' :: '\x22' :: (choicesKey ++ '\x22' :: ':' ::
        ('[' :: '\x7b' :: '\x22' :: (deltaKey ++ '\x22' :: ':' ::
          ('\x7b' :: '\x22' :: (contentKey ++ '\x22' :: ':' ::
            ('\x22' :: (jsonEscape d ++ '\x22' :: ('\x7d' :: '\x7d' :: ']' :: '\x7d' :: r)))))))) := by
    simp [encFrameBody, framePre, framePost, choicesKey, deltaKey, contentKey]
  rw [heq]
  exact hE

/-! ## Lemmas: decoding one frame line -/

theorem trimLeft_cons (c : Char) (r : List Char) (h : isWsChar c = false) :
    trimLeft (c :: r) = c :: r := by
  rw [trimLeft, h]
  simp

theorem jsonParse_frame (d : List Char) :
    jsonParse (encFrameBody d) = some (frameJson d) := by
  have hlen : 7 ≤ (encFrameBody d).length := by
    simp [encFrameBody, framePre, framePost]
  obtain ⟨n, hn⟩ : ∃ n, (encFrameBody d).length + 1 = n + 8 :=
    ⟨(encFrameBody d).length - 7, by omega⟩
  rw [jsonParse, hn]
  have hp := parseVal_frame n d []
  rw [List.append_nil] at hp
  rw [hp]
  simp [skipWs]

theorem no_nl_hexDigitChar (m : Nat) (h : m < 16) : ¬ hexDigitChar m = '\n' := by
  rw [hexDigitChar]
  revert h
  revert m
  decide

theorem no_nl_escapeChar (c : Char) : '\n' ∉ escapeChar c := by
  rw [escapeChar]
  split_ifs with h1 h2 h3 h4 h5 h6
  · decide
  · decide
  · decide
  · decide
  · decide
  · intro hmem
    have ha : c.toNat / 16 < 16 := by omega
    have hb : c.toNat % 16 < 16 := by omega
    simp only [List.mem_cons, List.not_mem_nil, or_false] at hmem
    rcases hmem with h | h | h | h | h | h
    · exact absurd h (by decide)
    · exact absurd h (by decide)
    · exact absurd h (by decide)
    · exact absurd h (by decide)
    · exact no_nl_hexDigitChar _ ha h.symm
    · exact no_nl_hexDigitChar _ hb h.symm
  · intro hmem
    simp only [List.mem_cons, List.not_mem_nil, or_false] at hmem
    exact h3 hmem.symm

theorem no_nl_jsonEscape (d : List Char) : '\n' ∉ jsonEscape d := by
  induction d with
  | nil => simp [jsonEscape]
  | cons c r ih =>
    rw [jsonEscape]
    intro hmem
    rcases List.mem_append.mp hmem with h | h
    · exact no_nl_escapeChar c h
    · exact ih h

theorem no_nl_encFrameBody (d : List Char) : '\n' ∉ encFrameBody d := by
  rw [encFrameBody]
  intro hmem
  rcases List.mem_append.mp hmem with h | h
  · revert h
    decide
  · rcases List.mem_append.mp h with h2 | h2
    · exact no_nl_jsonEscape d h2
    · revert h2
      decide

theorem no_nl_frame_line (d : List Char) : '\n' ∉ dataPfx ++ encFrameBody d := by
  intro hmem
  rcases List.mem_append.mp hmem with h | h
  · revert h
    decide
  · exact no_nl_encFrameBody d h

theorem jsTrim_frame_line (d : List Char) :
    jsTrim (dataPfx ++ encFrameBody d) = dataPfx ++ encFrameBody d := by
  have h1 : trimLeft (dataPfx ++ encFrameBody d) = dataPfx ++ encFrameBody d := by
    rw [dataPfx]
    simp only [List.cons_append]
    exact trimLeft_cons _ _ (by decide)
  have h2 : trimLeft ((dataPfx ++ encFrameBody d).reverse) =
      (dataPfx ++ encFrameBody d).reverse := by
    rw [encFrameBody, framePost]
    simp only [List.reverse_append, List.reverse_cons, List.reverse_nil, List.nil_append,
      List.append_assoc, List.cons_append]
    exact trimLeft_cons _ _ (by decide)
  rw [jsTrim]
  simp only [h1, h2, List.reverse_reverse]

theorem frame_line_ne_doneLine (d : List Char) :
    ¬ dataPfx ++ encFrameBody d = doneLine := by
  intro h
  have hlen := congrArg List.length h
  simp [dataPfx, encFrameBody, framePre, framePost, doneLine, String.length] at hlen

theorem decodeSseLine_frame (d : List Char) (hd : ¬ d = []) :
    decodeSseLine (dataPfx ++ encFrameBody d) = some (Json.str d) := by
  rw [decodeSseLine]
  simp only [jsTrim_frame_line]
  rw [if_neg (by simp [dataPfx]), if_neg (frame_line_ne_doneLine d),
    if_neg (by
      simp only [Decidable.not_not]
      exact List.isPrefixOf_iff_prefix.mpr (List.prefix_append dataPfx (encFrameBody d)))]
  rw [show (6 : Nat) = dataPfx.length from rfl, List.drop_left, jsonParse_frame d]
  simp only []
  rw [show extractDelta (frameJson d) = some (Json.str d) from rfl]
  simp [truthy, hd]

theorem splitNl_no_nl_append (a b : List Char) (h : '\n' ∉ a) :
    splitNl (a ++ '\n' :: b) = a :: splitNl b := by
  rw [splitNl_append a ('\n' :: b), splitNl_no_nl a h, splitNl_cons_nl]
  simp

theorem decodeSseLine_nil : decodeSseLine [] = none := rfl

theorem decodeAll_sseStream (ds : List (List Char)) (h : ∀ d ∈ ds, ¬ d = []) :
    decodeAll (sseStream ds) = ds.map Json.str := by
  induction ds with
  | nil => simp [sseStream, decodeAll, splitNl, decodeLines]
  | cons d ds ih =>
    have hd : ¬ d = [] := h d (List.mem_cons_self d ds)
    have hds : ∀ x ∈ ds, ¬ x = [] := fun x hx => h x (List.mem_cons_of_mem d hx)
    have hstream : sseStream (d :: ds) =
        (dataPfx ++ encFrameBody d) ++ '\n' :: '\n' :: sseStream ds := by
      simp [sseStream, sseFrame, List.append_assoc]
    rw [hstream, decodeAll, splitNl_no_nl_append _ _ (no_nl_frame_line d), splitNl_cons_nl]
    rcases hS : splitNl (sseStream ds) with _ | ⟨x, xs⟩
    · exact absurd hS (splitNl_ne_nil _)
    · have hih := ih hds
      rw [decodeAll, hS] at hih
      simp only [List.dropLast_cons_of_ne_nil (List.cons_ne_nil x xs),
        List.dropLast_cons_of_ne_nil (List.cons_ne_nil ([] : List Char) (x :: xs))]
      rw [decodeLines, List.filterMap_cons, decodeSseLine_frame d hd,
        List.filterMap_cons, decodeSseLine_nil]
      rw [decodeLines] at hih
      rw [hih]
      simp

theorem deltaConcat_map_str (ds : List (List Char)) :
    deltaConcat (ds.map Json.str) = ds.flatten := by
  induction ds with
  | nil => simp [deltaConcat]
  | cons d ds ih =>
    simp only [List.map_cons, deltaConcat, List.flatten_cons] at *
    rw [← ih]

/-- A stream presented as complete lines, each terminated by a newline. -/
def unlines (ls : List (List Char)) : List Char :=
  (ls.map (fun l => l ++ ['\n'])).flatten

theorem decodeAll_unlines (ls : List (List Char)) (h : ∀ l ∈ ls, '\n' ∉ l) :
    decodeAll (unlines ls) = decodeLines ls := by
  induction ls with
  | nil => simp [unlines, decodeAll, splitNl, decodeLines]
  | cons l ls ih =>
    have hl : '\n' ∉ l := h l (List.mem_cons_self l ls)
    have hls : ∀ x ∈ ls, '\n' ∉ x := fun x hx => h x (List.mem_cons_of_mem l hx)
    have hu : unlines (l :: ls) = l ++ '\n' :: unlines ls := by
      simp [unlines]
    rw [hu, decodeAll, splitNl_no_nl_append _ _ hl]
    rcases hS : splitNl (unlines ls) with _ | ⟨x, xs⟩
    · exact absurd hS (splitNl_ne_nil _)
    · have hih := ih hls
      rw [decodeAll, hS] at hih
      simp only [List.dropLast_cons_of_ne_nil (List.cons_ne_nil x xs)]
      rw [decodeLines] at hih
      simp only [decodeLines, List.filterMap_cons, hih]

/-- A line that carries the SSE data prefix after trimming but whose
remainder is not valid JSON decodes to nothing: the parse failure is
caught and the line is skipped. -/
theorem decodeSseLine_malformed (bad : List Char)
    (hpfx : dataPfx.isPrefixOf (jsTrim bad) = true)
    (hparse : jsonParse ((jsTrim bad).drop 6) = none) :
    decodeSseLine bad = none := by
  rw [decodeSseLine]
  by_cases ht0 : jsTrim bad = []
  · simp [ht0]
  · rw [if_neg ht0]
    by_cases htd : jsTrim bad = doneLine
    · simp [htd]
    · rw [if_neg htd, if_neg (by simp [hpfx])]
      rw [hparse]

/-- C1 (claim as stated is refuted here): a data line carrying the empty
delta is skipped by the guard `if (delta)` (the empty string is falsy), so
the synthetic stream with deltas `["a", "", "b"]` yields only two deltas,
not exactly the three it carries.  (Their concatenation still equals the
full text.) -/
theorem c1_counterexample :
    chatStreamDecode [sseStream [['a'], [], ['b']]] = [Json.str ['a'], Json.str ['b']] ∧
    ¬ chatStreamDecode [sseStream [['a'], [], ['b']]] =
        ([['a'], [], ['b']].map Json.str) := by
  refine ⟨rfl, fun hEq => ?_⟩
  have h2 : [Json.str ['a'], Json.str ['b']] =
      [Json.str ['a'], Json.str [], Json.str ['b']] := hEq
  have h3 := congrArg List.length h2
  simp at h3

/-- C1 (amended: deltas non-empty): for every SSE byte stream whose data
lines carry non-empty deltas `ds` concatenating to `S = ds.flatten`, the
streaming decoder of `chatStream` yields exactly those deltas in original
order with concatenation `S`, and the output is the same for every way
the bytes are split into read chunks (the fragment after the last newline
of a read is retained in the buffer and completed by the next read). -/
theorem c1_stream_roundtrip (ds : List (List Char)) (hds : ∀ d ∈ ds, ¬ d = [])
    (cs : List (List Char)) (hcs : cs.flatten = sseStream ds) :
    chatStreamDecode cs = ds.map Json.str ∧
    deltaConcat (chatStreamDecode cs) = ds.flatten := by
  have h1 : chatStreamDecode cs = decodeAll (sseStream ds) := by
    rw [chatStreamDecode_eq_decodeAll, hcs]
  have h2 := decodeAll_sseStream ds hds
  refine ⟨h1.trans h2, ?_⟩
  rw [h1, h2, deltaConcat_map_str]

/-- Witness for `c1_stream_roundtrip`: the spec's own example deltas
`["Hel", "lo, ", "world"]`, delivered in two reads that split the stream
in the middle of a frame. -/
theorem c1_stream_roundtrip_witness :
    (∀ d ∈ [['H','e','l'], ['l','o',',',' '], ['w','o','r','l','d']], ¬ d = []) ∧
    ([(sseStream [['H','e','l'], ['l','o',',',' '], ['w','o','r','l','d']]).take 20,
        (sseStream [['H','e','l'], ['l','o',',',' '], ['w','o','r','l','d']]).drop 20].flatten =
      sseStream [['H','e','l'], ['l','o',',',' '], ['w','o','r','l','d']]) ∧
    (chatStreamDecode [(sseStream [['H','e','l'], ['l','o',',',' '], ['w','o','r','l','d']]).take 20,
        (sseStream [['H','e','l'], ['l','o',',',' '], ['w','o','r','l','d']]).drop 20] =
      [['H','e','l'], ['l','o',',',' '], ['w','o','r','l','d']].map Json.str ∧
      deltaConcat (chatStreamDecode
        [(sseStream [['H','e','l'], ['l','o',',',' '], ['w','o','r','l','d']]).take 20,
         (sseStream [['H','e','l'], ['l','o',',',' '], ['w','o','r','l','d']]).drop 20]) =
        [['H','e','l'], ['l','o',',',' '], ['w','o','r','l','d']].flatten) :=
  ⟨by decide, rfl, c1_stream_roundtrip _ (by decide) _ rfl⟩

/-- C5: a line that is not valid JSON after the SSE data prefix is
skipped and decoding continues: the stream made of the lines
`ls1 ++ [bad] ++ ls2` (newline-terminated) yields exactly the deltas of
`ls1` followed by the deltas of `ls2` - the malformed line neither aborts
decoding nor suppresses any later valid line. -/
theorem c5_malformed_line_nonfatal (ls1 ls2 : List (List Char)) (bad : List Char)
    (hnl : ∀ l ∈ ls1 ++ bad :: ls2, '
' ∉ l)
    (hpfx : dataPfx.isPrefixOf (jsTrim bad) = true)
    (hparse : jsonParse ((jsTrim bad).drop 6) = none) :
    chatStreamDecode [unlines (ls1 ++ bad :: ls2)] =
      decodeLines ls1 ++ decodeLines ls2 := by
  rw [chatStreamDecode_eq_decodeAll]
  simp only [List.flatten_cons, List.flatten_nil, List.append_nil]
  rw [decodeAll_unlines _ hnl, decodeLines, List.filterMap_append, List.filterMap_cons,
    decodeSseLine_malformed bad hpfx hparse]
  simp [decodeLines]

/-- Witness for `c5_malformed_line_nonfatal`: the malformed line
`data: \x7binvalid` sits between two valid frame lines carrying `a` and
`b`; decoding still yields both deltas. -/
theorem c5_malformed_line_nonfatal_witness :
    (∀ l ∈ [dataPfx ++ encFrameBody ['a']] ++
        ("data: \x7binvalid".toList) :: [dataPfx ++ encFrameBody ['b']], '\n' ∉ l) ∧
    dataPfx.isPrefixOf (jsTrim ("data: \x7binvalid".toList)) = true ∧
    jsonParse ((jsTrim ("data: \x7binvalid".toList)).drop 6) = none ∧
    (chatStreamDecode [unlines ([dataPfx ++ encFrameBody ['a']] ++
        ("data: \x7binvalid".toList) :: [dataPfx ++ encFrameBody ['b']])] =
      decodeLines [dataPfx ++ encFrameBody ['a']] ++
        decodeLines [dataPfx ++ encFrameBody ['b']] ∧
      decodeLines [dataPfx ++ encFrameBody ['a']] ++
        decodeLines [dataPfx ++ encFrameBody ['b']] =
          [Json.str ['a'], Json.str ['b']]) :=
  ⟨by decide, by decide, by rfl,
    c5_malformed_line_nonfatal _ _ _ (by decide) (by decide) (by rfl), by rfl⟩

/-! ## Claims about the services -/

/-- Ordered message list as the spec describes it (spec section 4.1):
optional system message first, then the history in original order, then
the current user message last. -/
def orderedMessages (sys : Option (List Char)) (history : List OpenAIMessage)
    (msg : List Char) : List OpenAIMessage :=
  (match sys with
   | some sp => [⟨Role.system, sp⟩]
   | none => []) ++ history ++ [⟨Role.user, msg⟩]

/-- C3 (claim as stated is refuted here): a supplied but empty
`systemPrompt` is falsy, so no system message is built although the field
is supplied - "present iff supplied" fails at `systemPrompt = ""`. -/
theorem c3_counterexample :
    (ChatServiceRequest.mk ['h','i'] none (some []) none none none).systemPrompt.isSome = true ∧
    chatMessages (ChatServiceRequest.mk ['h','i'] none (some []) none none none) =
      [⟨Role.user, ['h','i']⟩] := by
  refine ⟨rfl, ?_⟩
  rfl

/-- C3 (amended: system message present iff `systemPrompt` is supplied
and non-empty): every message list sent to the provider is ordered as the
spec describes - optional system message first (from a truthy
`systemPrompt`), then the supplied history in original order (empty when
absent), then the current user message last; this holds for
`chatWithHistory` and (with empty history) for `chat`. -/
theorem c3_message_order (req : ChatServiceRequest) (history : Option (List OpenAIMessage)) :
    chatWithHistoryMessages req history =
      orderedMessages (jsStr req.systemPrompt) (history.getD []) req.message ∧
    chatMessages req = orderedMessages (jsStr req.systemPrompt) [] req.message := by
  constructor
  · rw [chatWithHistoryMessages.eq_def, orderedMessages.eq_def]
    cases history with
    | none => simp
    | some h =>
      cases h with
      | nil => simp
      | cons a l => simp
  · rw [chatMessages.eq_def, orderedMessages.eq_def]
    simp

/-- C4: `ensureConversationId` behaviour of `chat`
(`request.conversationId || this.generateConversationId()`): a supplied
non-empty conversation id is echoed unchanged, and an absent one is
replaced by the freshly generated `conv_<now>_<rand>` identifier. -/
theorem c4_conversation_id (req : ChatServiceRequest) (now : Nat) (rand : List Char)
    (outcome : FetchOutcome) (resp : ChatServiceResponse)
    (hok : OpenAIService.chat req now rand outcome = Except.ok resp) :
    (∀ c, req.conversationId = some c → ¬ c = [] → resp.conversationId = c) ∧
    (req.conversationId = none →
      resp.conversationId = generateConversationId now rand) := by
  cases outcome with
  | failure m => exact absurd hok (by simp [OpenAIService.chat])
  | httpError s st b => exact absurd hok (by simp [OpenAIService.chat])
  | ok body =>
    rw [OpenAIService.chat] at hok
    rcases hch : body.choices with _ | ⟨⟩ | ⟨choice, rest⟩
    · rw [hch] at hok
      exact absurd hok (by simp)
    · rw [hch] at hok
      exact absurd hok (by simp)
    · rw [hch] at hok
      have hresp := (Except.ok.injEq _ _).mp hok
      constructor
      · intro c hc hne
        rw [← hresp]
        simp [jsOr, jsStr, hc, hne]
      · intro hc
        rw [← hresp]
        simp [jsOr, jsStr, hc]

/-- Witness for `c4_conversation_id`: a successful call with supplied id
`conv-7` echoes it; the same response body with no supplied id yields the
generated identifier. -/
theorem c4_conversation_id_witness :
    OpenAIService.chat
        (ChatServiceRequest.mk ['h','i'] (some ['c','7']) none none none none) 5 ['z']
        (FetchOutcome.ok (OpenAIResponseBody.mk
          (some [OpenAIChoice.mk ⟨Role.assistant, ['o','k']⟩ none]) none ['m'])) =
      Except.ok (ChatServiceResponse.mk ['o','k'] ['c','7'] none (some ['m']) none) ∧
    (∀ c, (some (['c','7'] : List Char)) = some c → ¬ c = [] →
      (ChatServiceResponse.mk ['o','k'] ['c','7'] none (some ['m']) none).conversationId = c) := by
  refine ⟨rfl, ?_⟩
  exact (c4_conversation_id
    (ChatServiceRequest.mk ['h','i'] (some ['c','7']) none none none none) 5 ['z']
    (FetchOutcome.ok (OpenAIResponseBody.mk
      (some [OpenAIChoice.mk ⟨Role.assistant, ['o','k']⟩ none]) none ['m']))
    (ChatServiceResponse.mk ['o','k'] ['c','7'] none (some ['m']) none) rfl).1

/-- C10: a supplied empty-string `conversationId` is falsy in the guard
`request.conversationId || generateConversationId()`, so `chat` generates
a fresh identifier instead of echoing the empty string; consequently the
`conversationId` of every successful result is non-empty. -/
theorem c10_nonempty_conversation_id (req : ChatServiceRequest) (now : Nat)
    (rand : List Char) (outcome : FetchOutcome) (resp : ChatServiceResponse)
    (hok : OpenAIService.chat req now rand outcome = Except.ok resp) :
    (req.conversationId = some [] →
      resp.conversationId = generateConversationId now rand) ∧
    ¬ resp.conversationId = [] := by
  cases outcome with
  | failure m => exact absurd hok (by simp [OpenAIService.chat])
  | httpError s st b => exact absurd hok (by simp [OpenAIService.chat])
  | ok body =>
    rw [OpenAIService.chat] at hok
    rcases hch : body.choices with _ | ⟨⟩ | ⟨choice, rest⟩
    · rw [hch] at hok
      exact absurd hok (by simp)
    · rw [hch] at hok
      exact absurd hok (by simp)
    · rw [hch] at hok
      have hresp := (Except.ok.injEq _ _).mp hok
      constructor
      · intro hc
        rw [← hresp]
        simp [jsOr, jsStr, hc, generateConversationId]
      · rw [← hresp]
        simp only []
        rcases hcid : req.conversationId with _ | c
        · simp [jsOr, jsStr, hcid, generateConversationId]
        · by_cases hc : c = []
          · simp [jsOr, jsStr, hcid, hc, generateConversationId]
          · simp [jsOr, jsStr, hcid, hc]

/-- Witness for `c10_nonempty_conversation_id`: a call supplying the
empty string as conversation id gets the generated
`conv_5_z` identifier, which is non-empty. -/
theorem c10_nonempty_conversation_id_witness :
    OpenAIService.chat
        (ChatServiceRequest.mk ['h','i'] (some []) none none none none) 5 ['z']
        (FetchOutcome.ok (OpenAIResponseBody.mk
          (some [OpenAIChoice.mk ⟨Role.assistant, ['o','k']⟩ none]) none ['m'])) =
      Except.ok (ChatServiceResponse.mk ['o','k'] (generateConversationId 5 ['z'])
        none (some ['m']) none) ∧
    ((some ([] : List Char) = some [] →
      (ChatServiceResponse.mk ['o','k'] (generateConversationId 5 ['z'])
        none (some ['m']) none).conversationId = generateConversationId 5 ['z']) ∧
     ¬ (ChatServiceResponse.mk ['o','k'] (generateConversationId 5 ['z'])
        none (some ['m']) none).conversationId = []) := by
  refine ⟨rfl, ?_⟩
  exact c10_nonempty_conversation_id
    (ChatServiceRequest.mk ['h','i'] (some []) none none none none) 5 ['z']
    (FetchOutcome.ok (OpenAIResponseBody.mk
      (some [OpenAIChoice.mk ⟨Role.assistant, ['o','k']⟩ none]) none ['m']))
    (ChatServiceResponse.mk ['o','k'] (generateConversationId 5 ['z']) none (some ['m']) none)
    rfl

/-- C6 (claim as stated is refuted here): the service `chat` method
itself performs no message validation - a whitespace-only message is
forwarded to the provider (the built message list carries it verbatim)
and a successful response is returned, not an error. -/
theorem c6_counterexample :
    chatMessages (ChatServiceRequest.mk [' ', ' '] none none none none none) =
      [⟨Role.user, [' ', ' ']⟩] ∧
    OpenAIService.chat (ChatServiceRequest.mk [' ', ' '] none none none none none) 0 ['x']
      (FetchOutcome.ok (OpenAIResponseBody.mk
        (some [OpenAIChoice.mk ⟨Role.assistant, ['o','k']⟩ none]) none ['m'])) =
      Except.ok (ChatServiceResponse.mk ['o','k'] (generateConversationId 0 ['x'])
        none (some ['m']) none) := by
  exact ⟨rfl, rfl⟩

/-- C6 (amended): empty or whitespace-only messages are rejected by the
caller, not by the service core: `handleChatAPI` answers
`INVALID_MESSAGE` with HTTP 400 for every message that is absent, empty
or whitespace-only and never reaches the service, while the service
`chat` itself accepts any message unconditionally (every 2xx outcome
with a non-empty choice list yields a successful result). -/
theorem c6_validation_in_caller (s : List Char) (hws : jsTrim s = [])
    (conversationId systemPrompt : Option (List Char)) (apiKeySet : Bool)
    (now : Nat) (rand timestamp : List Char) (outcome : FetchOutcome)
    (req : ChatServiceRequest) (body : OpenAIResponseBody) (choice : OpenAIChoice)
    (rest : List OpenAIChoice) (hch : body.choices = some (choice :: rest)) :
    handleChatAPI (ChatRequestBody.mk (some s) conversationId systemPrompt)
        apiKeySet now rand timestamp outcome =
      Except.ok (ApiResult.envelope
        ("Message is required and must be a non-empty string".toList)
        ("INVALID_MESSAGE".toList) 400) ∧
    OpenAIService.chat req now rand (FetchOutcome.ok body) =
      Except.ok
        { message := choice.message.content
          conversationId := jsOr req.conversationId (generateConversationId now rand)
          usage := body.usage
          model := some body.model
          finishReason := choice.finish_reason } := by
  constructor
  · rw [handleChatAPI]
    have hinv : messageInvalid (some s) = true := by
      rw [messageInvalid, jsStr]
      by_cases h0 : s = []
      · simp [h0]
      · simp [h0, hws]
    simp [hinv]
  · rw [OpenAIService.chat, hch]

/-- Witness for `c6_validation_in_caller`: the whitespace-only message
`"  "` is rejected by the handler with `INVALID_MESSAGE`, while the
service accepts the request `"hi"` against a one-choice response. -/
theorem c6_validation_in_caller_witness :
    jsTrim [' ', ' '] = [] ∧
    (OpenAIResponseBody.mk (some [OpenAIChoice.mk ⟨Role.assistant, ['o','k']⟩ none])
        none ['m']).choices = some [OpenAIChoice.mk ⟨Role.assistant, ['o','k']⟩ none] ∧
    handleChatAPI (ChatRequestBody.mk (some [' ', ' ']) none none) true 0 ['x'] ['t']
        (FetchOutcome.failure ['e']) =
      Except.ok (ApiResult.envelope
        ("Message is required and must be a non-empty string".toList)
        ("INVALID_MESSAGE".toList) 400) := by
  refine ⟨by decide, rfl, ?_⟩
  exact (c6_validation_in_caller [' ', ' '] (by decide) none none true 0 ['x'] ['t']
    (FetchOutcome.failure ['e'])
    (ChatServiceRequest.mk ['h','i'] none none none none none)
    (OpenAIResponseBody.mk (some [OpenAIChoice.mk ⟨Role.assistant, ['o','k']⟩ none]) none ['m'])
    (OpenAIChoice.mk ⟨Role.assistant, ['o','k']⟩ none) [] rfl).1

/-- C7 (claim as stated is refuted here): `setDefaultModel` is a public
method that reassigns the `defaultModel` configuration field, so adapter
configuration is not immutable after construction. -/
theorem c7_counterexample :
    ¬ OpenAIService.setDefaultModel
        (OpenAIServiceState.mk ['k'] ['u'] ['g','p','t'] none) ['m','2'] =
      OpenAIServiceState.mk ['k'] ['u'] ['g','p','t'] none ∧
    (OpenAIService.setDefaultModel
        (OpenAIServiceState.mk ['k'] ['u'] ['g','p','t'] none) ['m','2']).defaultModel =
      ['m','2'] := by
  exact ⟨by decide, rfl⟩

/-- C7 (amended): the API key, base URL and organization are immutable -
`setDefaultModel` (the only mutator) leaves them unchanged and only
reassigns `defaultModel`; request defaults for omitted fields are filled
from the instance configuration and fixed literals: the model from
`defaultModel`, temperature `0.7`, max tokens `2000`. -/
theorem c7_config_and_defaults (st : OpenAIServiceState) (m : List Char)
    (req : ChatServiceRequest) (hm : req.model = none) (ht : req.temperature = none)
    (hx : req.maxTokens = none) :
    (OpenAIService.setDefaultModel st m).apiKey = st.apiKey ∧
    (OpenAIService.setDefaultModel st m).baseUrl = st.baseUrl ∧
    (OpenAIService.setDefaultModel st m).organization = st.organization ∧
    (OpenAIService.setDefaultModel st m).defaultModel = m ∧
    (chatPayload st req).model = st.defaultModel ∧
    (chatPayload st req).temperature = 7 / 10 ∧
    (chatPayload st req).max_tokens = 2000 := by
  refine ⟨rfl, rfl, rfl, rfl, ?_, ?_, ?_⟩
  · rw [chatPayload]
    simp [jsOr, jsStr, hm]
  · rw [chatPayload]
    simp [ht]
  · rw [chatPayload]
    simp [hx]

/-- Witness for `c7_config_and_defaults` at a concrete state and a
request that omits model, temperature and max tokens. -/
theorem c7_config_and_defaults_witness :
    (ChatServiceRequest.mk ['h','i'] none none none none none).model = none ∧
    ((OpenAIService.setDefaultModel
        (OpenAIServiceState.mk ['k'] ['u'] ['g','p','t'] none) ['m','2']).apiKey = ['k'] ∧
     (chatPayload (OpenAIServiceState.mk ['k'] ['u'] ['g','p','t'] none)
        (ChatServiceRequest.mk ['h','i'] none none none none none)).model = ['g','p','t'] ∧
     (chatPayload (OpenAIServiceState.mk ['k'] ['u'] ['g','p','t'] none)
        (ChatServiceRequest.mk ['h','i'] none none none none none)).max_tokens = 2000) := by
  have h := c7_config_and_defaults (OpenAIServiceState.mk ['k'] ['u'] ['g','p','t'] none)
    ['m','2'] (ChatServiceRequest.mk ['h','i'] none none none none none) rfl rfl rfl
  exact ⟨rfl, h.1, h.2.2.2.2.1, h.2.2.2.2.2.2⟩

theorem estimateTokens_eq_ceil (t : List Char) :
    ((OpenAIService.estimateTokens t : ℤ) : ℚ) = ⌈(t.length : ℚ) / 4⌉ := by
  rw [OpenAIService.estimateTokens]
  have key : ∀ q : ℕ, 4 * q ≤ t.length + 3 → t.length + 3 < 4 * q + 4 →
      ((q : ℤ) : ℚ) = ⌈(t.length : ℚ) / 4⌉ := by
    intro q hq1 hq2
    have hr1 : (4 : ℚ) * q ≤ (t.length : ℚ) + 3 := by exact_mod_cast hq1
    rw [eq_comm]
    norm_cast
    rw [Int.ceil_eq_iff]
    constructor
    · rw [lt_div_iff₀ (by norm_num : (0:ℚ) < 4)]
      push_cast
      linarith
    · rw [div_le_iff₀ (by norm_num : (0:ℚ) < 4)]
      have hn : t.length ≤ 4 * q := by omega
      have hr3 : (t.length : ℚ) ≤ 4 * q := by exact_mod_cast hn
      push_cast
      linarith
  exact_mod_cast key ((t.length + 4 - 1) / 4) (by omega) (by omega)

/-- C8: usage accounting - a provider-supplied `usage` object is passed
through to the result unchanged (including its absence), and the
`estimateTokens` heuristic computes exactly `ceil(characterCount / 4)`,
so an 8-character text estimates 2 tokens and a 16-character text
estimates 4. -/
theorem c8_usage_accounting (req : ChatServiceRequest) (now : Nat) (rand : List Char)
    (body : OpenAIResponseBody) (resp : ChatServiceResponse)
    (hok : OpenAIService.chat req now rand (FetchOutcome.ok body) = Except.ok resp) :
    resp.usage = body.usage ∧
    (∀ t : List Char, ((OpenAIService.estimateTokens t : ℤ) : ℚ) = ⌈(t.length : ℚ) / 4⌉) ∧
    OpenAIService.estimateTokens ("12345678".toList) = 2 ∧
    OpenAIService.estimateTokens ("1234567890123456".toList) = 4 := by
  refine ⟨?_, estimateTokens_eq_ceil, by decide, by decide⟩
  rw [OpenAIService.chat] at hok
  rcases hch : body.choices with _ | ⟨⟩ | ⟨choice, rest⟩
  · rw [hch] at hok
    exact absurd hok (by simp)
  · rw [hch] at hok
    exact absurd hok (by simp)
  · rw [hch] at hok
    have hresp := (Except.ok.injEq _ _).mp hok
    rw [← hresp]

/-- Witness for `c8_usage_accounting`: the usage block `(5, 3, 8)` of a
successful response is returned unchanged. -/
theorem c8_usage_accounting_witness :
    OpenAIService.chat (ChatServiceRequest.mk ['h','i'] none none none none none) 0 ['x']
        (FetchOutcome.ok (OpenAIResponseBody.mk
          (some [OpenAIChoice.mk ⟨Role.assistant, ['o','k']⟩ none])
          (some (Usage.mk 5 3 8)) ['m'])) =
      Except.ok (ChatServiceResponse.mk ['o','k'] (generateConversationId 0 ['x'])
        (some (Usage.mk 5 3 8)) (some ['m']) none) ∧
    ((ChatServiceResponse.mk ['o','k'] (generateConversationId 0 ['x'])
        (some (Usage.mk 5 3 8)) (some ['m']) none).usage = some (Usage.mk 5 3 8) ∧
      OpenAIService.estimateTokens ("12345678".toList) = 2) := by
  refine ⟨rfl, ?_, ?_⟩
  · exact (c8_usage_accounting (ChatServiceRequest.mk ['h','i'] none none none none none)
      0 ['x']
      (OpenAIResponseBody.mk (some [OpenAIChoice.mk ⟨Role.assistant, ['o','k']⟩ none])
        (some (Usage.mk 5 3 8)) ['m'])
      (ChatServiceResponse.mk ['o','k'] (generateConversationId 0 ['x'])
        (some (Usage.mk 5 3 8)) (some ['m']) none) rfl).1
  · decide

/-- The error kind the claim assigns to each failure outcome, via the
spec's classifier. -/
def claimedKind : FetchOutcome → ErrorKind
  | FetchOutcome.failure _ => classifySpec true none false
  | FetchOutcome.httpError s _ _ => classifySpec false (some s) false
  | FetchOutcome.ok _ => classifySpec false none true

/-- Formal statement of claim C2: some classification of the thrown
errors agrees, on every failed call, with the kinds the claim lists
(transport failure: Unavailable; 401: AuthenticationError; 429:
RateLimited; 503: Unavailable; other 4xx: InvalidRequest; other 5xx:
ProviderInternalError; 2xx with absent or empty choices:
EmptyResponse). -/
def c2Claim : Prop :=
  ∃ kindOf : List Char → ErrorKind,
    ∀ (req : ChatServiceRequest) (now : Nat) (rand : List Char)
      (outcome : FetchOutcome) (e : List Char),
      OpenAIService.chat req now rand outcome = Except.error e →
      kindOf e = claimedKind outcome

/-- C2 (claim as stated is refuted here): a 400 response and a 500
response whose bodies carry the same provider message `oops` make `chat`
throw the identical error (`OpenAI API error: oops`), yet the claim
demands the kinds InvalidRequest and ProviderInternalError for them, so
no classification of the thrown errors can realise the claim; the thrown
errors are not classified. -/
theorem c2_counterexample : ¬ c2Claim := by
  intro hcl
  rcases hcl with ⟨f, h⟩
  have h4 := h (ChatServiceRequest.mk ['h','i'] none none none none none) 0 ['x']
    (FetchOutcome.httpError 400 [] (some ['o','o','p','s']))
    (chatHttpErrorMsg 400 [] (some ['o','o','p','s'])) rfl
  have h5 := h (ChatServiceRequest.mk ['h','i'] none none none none none) 0 ['x']
    (FetchOutcome.httpError 500 [] (some ['o','o','p','s']))
    (chatHttpErrorMsg 500 [] (some ['o','o','p','s'])) rfl
  have hmsg : chatHttpErrorMsg 400 [] (some ['o','o','p','s']) =
      chatHttpErrorMsg 500 [] (some ['o','o','p','s']) := by decide
  rw [hmsg] at h4
  have hk := h4.symm.trans h5
  revert hk
  decide

/-- C2 (amended): the failure behaviour of `chat` is classified only by
message text: dedicated messages for 401, 429, 503 and for a 2xx body
with absent or empty choices, a generic `OpenAI API error: ` message
(carrying the provider message, or status and statusText) for every
other non-2xx status, and transport failures rethrown unchanged; the
four dedicated messages are pairwise distinct, but other 4xx and 5xx
responses are not distinguished from each other. -/
theorem c2_error_messages (req : ChatServiceRequest) (now : Nat) (rand : List Char)
    (s : Nat) (statusText : List Char) (bodyErrMsg : Option (List Char))
    (h401 : ¬ s = 401) (h429 : ¬ s = 429) (h503 : ¬ s = 503)
    (errMsg : List Char) (body : OpenAIResponseBody)
    (hempty : body.choices = none ∨ body.choices = some []) :
    OpenAIService.chat req now rand (FetchOutcome.failure errMsg) =
      Except.error errMsg ∧
    OpenAIService.chat req now rand (FetchOutcome.httpError 401 statusText bodyErrMsg) =
      Except.error invalidKeyMsg ∧
    OpenAIService.chat req now rand (FetchOutcome.httpError 429 statusText bodyErrMsg) =
      Except.error rateLimitMsg ∧
    OpenAIService.chat req now rand (FetchOutcome.httpError 503 statusText bodyErrMsg) =
      Except.error unavailableMsg ∧
    OpenAIService.chat req now rand (FetchOutcome.httpError s statusText bodyErrMsg) =
      Except.error (apiErrorPfx ++ jsOr bodyErrMsg ((toString s).toList ++ ' ' :: statusText)) ∧
    OpenAIService.chat req now rand (FetchOutcome.ok body) = Except.error noResponseMsg ∧
    (¬ invalidKeyMsg = rateLimitMsg ∧ ¬ invalidKeyMsg = unavailableMsg ∧
     ¬ rateLimitMsg = unavailableMsg ∧ ¬ noResponseMsg = invalidKeyMsg ∧
     ¬ noResponseMsg = rateLimitMsg ∧ ¬ noResponseMsg = unavailableMsg) := by
  refine ⟨rfl, ?_, ?_, ?_, ?_, ?_, by decide⟩
  · rw [OpenAIService.chat, chatHttpErrorMsg]
    simp
  · rw [OpenAIService.chat, chatHttpErrorMsg]
    norm_num
  · rw [OpenAIService.chat, chatHttpErrorMsg]
    norm_num
  · rw [OpenAIService.chat, chatHttpErrorMsg]
    simp [h401, h429, h503]
  · rw [OpenAIService.chat]
    rcases hempty with h | h <;> rw [h]

/-- Witness for `c2_error_messages` at status 418 with provider message
absent and an empty-choices 2xx body. -/
theorem c2_error_messages_witness :
    ¬ (418 : Nat) = 401 ∧
    (OpenAIResponseBody.mk (some []) none ['m']).choices = some [] ∧
    OpenAIService.chat (ChatServiceRequest.mk ['h','i'] none none none none none) 0 ['x']
        (FetchOutcome.httpError 418 ['T'] none) =
      Except.error (apiErrorPfx ++ jsOr none ((toString (418 : Nat)).toList ++ ' ' :: ['T'])) ∧
    OpenAIService.chat (ChatServiceRequest.mk ['h','i'] none none none none none) 0 ['x']
        (FetchOutcome.ok (OpenAIResponseBody.mk (some []) none ['m'])) =
      Except.error noResponseMsg := by
  have h := c2_error_messages (ChatServiceRequest.mk ['h','i'] none none none none none)
    0 ['x'] 418 ['T'] none (by decide) (by decide) (by decide) ['e']
    (OpenAIResponseBody.mk (some []) none ['m']) (Or.inr rfl)
  exact ⟨by decide, rfl, h.2.2.2.2.1, h.2.2.2.2.2.1⟩

/-- C9 (the code contradicts the claim; the service reports the provider
model but the REST handler discards it): `handleChatAPI` stamps the
hardcoded label `deepseek-chat` on the uniform result although the call
was served by `OpenAIService` and the provider declared `gpt-4o`; the
first conjunct evaluates the handler at that failing input, the last one
shows that `OpenAIService.chat` itself returned the provider's declared
model for the same response body, so the handler discards it. -/
theorem c9_hardcoded_model :
    handleChatAPI (ChatRequestBody.mk (some ['h','i']) none none) true 0 ['x'] ['t']
        (FetchOutcome.ok (OpenAIResponseBody.mk
          (some [OpenAIChoice.mk ⟨Role.assistant, ['o','k']⟩ none]) none ("gpt-4o".toList))) =
      Except.ok (ApiResult.okResponse (ChatResponse.mk ['o','k']
        (generateConversationId 0 ['x']) ['t'] hardcodedModel none)) ∧
    ¬ hardcodedModel = "gpt-4o".toList ∧
    OpenAIService.chat (ChatServiceRequest.mk ['h','i'] none none none none none) 0 ['x']
        (FetchOutcome.ok (OpenAIResponseBody.mk
          (some [OpenAIChoice.mk ⟨Role.assistant, ['o','k']⟩ none]) none ("gpt-4o".toList))) =
      Except.ok (ChatServiceResponse.mk ['o','k'] (generateConversationId 0 ['x'])
        none (some ("gpt-4o".toList)) none) := by
  exact ⟨rfl, by decide, rfl⟩
